import Mathlib

set_option maxRecDepth 100000

/-!
Shallow embedding of pigmap's block-image atlas subsystem (src/blockimages.h).
The header gives the data layout and the inline accessors; the bodies of
`create`, `construct`, `setOffsets`, `checkOpacityAndTransparency` and
`retouchAlphas` are not in the repository, so those are modelled from the
spec, as marked on each definition.
-/

namespace Pigmap

/-- One RGBA pixel; each channel is an 8-bit value modelled as a `Nat`. -/
structure RGBAPixel where
  r : Nat
  g : Nat
  b : Nat
  a : Nat
deriving DecidableEq

/-- The fully transparent pixel (alpha 0). -/
def transparentPixel : RGBAPixel := ⟨0, 0, 0, 0⟩

/-- An RGBA image: width, height and a row-major pixel buffer,
embedding the `RGBAImage` of rgba.h. -/
structure RGBAImage where
  w : Nat
  h : Nat
  data : List RGBAPixel
deriving DecidableEq

/-- Read the pixel at column `x`, row `y` of a row-major buffer. -/
def RGBAImage.getPixel (img : RGBAImage) (x y : Nat) : RGBAPixel :=
  img.data.getD (y * img.w + x) transparentPixel

/-- Build a `w`-by-`h` image whose pixel at `(x, y)` is `f x y`. -/
def mkImage (w h : Nat) (f : Nat → Nat → RGBAPixel) : RGBAImage :=
  { w := w, h := h,
    data := (List.range (w * h)).map (fun i => f (i % w) (i / w)) }

/-- A rectangle inside an image, embedding `ImageRect` of rgba.h. -/
structure ImageRect where
  x : Nat
  y : Nat
  w : Nat
  h : Nat
deriving DecidableEq

/-- Membership of the point `(px, py)` in a rectangle. -/
def ImageRect.contains (rect : ImageRect) (px py : Nat) : Prop :=
  rect.x ≤ px ∧ px < rect.x + rect.w ∧ rect.y ≤ py ∧ py < rect.y + rect.h

instance (rect : ImageRect) (px py : Nat) : Decidable (rect.contains px py) := by
  unfold ImageRect.contains; infer_instance

/-- Modelled from the spec: `NUMIMAGES` is declared in the header but defined
in the missing translation unit; the header's offset catalog lists slots 0
(dummy/air) through 228 (cake), so the number of block images is 229. -/
def NUMIMAGES : Nat := 229

/-- The `BlockImages` structure of blockimages.h: the atlas image, the
bounding-box size `rectsize` = 4B, the dense 256*16 offset table, and the
per-slot opacity and transparency tables. -/
structure BlockImages where
  img : RGBAImage
  rectsize : Nat
  blockOffsets : List Nat
  opacity : List Bool
  transparency : List Bool

/-- The unchecked array index `blockID * 16 + blockData` computed by
`getOffset` in blockimages.h line 85. -/
def offsetIndex (blockID blockData : Nat) : Nat := blockID * 16 + blockData

/-- Fallible form of `getOffset`: the raw array access
`blockOffsets[blockID * 16 + blockData]`, which is out of bounds exactly
when the index reaches past the table. -/
def BlockImages.getOffsetChecked (bi : BlockImages) (blockID blockData : Nat) :
    Option Nat :=
  bi.blockOffsets[offsetIndex blockID blockData]?

/-- `getOffset` from blockimages.h line 85:
`return blockOffsets[blockID * 16 + blockData]`. -/
def BlockImages.getOffset (bi : BlockImages) (blockID blockData : Nat) : Nat :=
  (bi.getOffsetChecked blockID blockData).getD 0

/-- `isOpaque` from blockimages.h line 90: `return opacity[offset]`. -/
def BlockImages.isOpaque (bi : BlockImages) (offset : Nat) : Bool :=
  bi.opacity.getD offset false

/-- `isTransparent` from blockimages.h line 95: `return transparency[offset]`. -/
def BlockImages.isTransparent (bi : BlockImages) (offset : Nat) : Bool :=
  bi.transparency.getD offset false

/-- `getRect` from blockimages.h line 99:
`ImageRect((offset%16)*rectsize, (offset/16)*rectsize, rectsize, rectsize)`. -/
def BlockImages.getRect (bi : BlockImages) (offset : Nat) : ImageRect :=
  ⟨(offset % 16) * bi.rectsize, (offset / 16) * bi.rectsize,
    bi.rectsize, bi.rectsize⟩

/-- Alpha normalization described at blockimages.h lines 53-55: any alpha
below 10 is pushed to 0 and any alpha above 245 is pushed to 255. -/
def retouchAlpha (a : Nat) : Nat :=
  if a < 10 then 0 else if 245 < a then 255 else a

/-- Apply the alpha retouch to one pixel, leaving the color channels alone. -/
def retouchPixel (p : RGBAPixel) : RGBAPixel :=
  { p with a := retouchAlpha p.a }

/-- Modelled from the spec: the body of `retouchAlphas` (blockimages.h line
114) is in the missing translation unit; per the header comment and §4.1 of
the spec it pushes every not-quite-transparent alpha (below 10) to 0 and
every not-quite-opaque alpha (above 245) to 255, over the whole atlas. -/
def retouchAlphas (img : RGBAImage) : RGBAImage :=
  { img with data := img.data.map retouchPixel }

/-- Modelled from the spec: the U (top) face region of the hexagon, per the
row-by-row outline in the blockimages.h comment (lines 30-43) and §4.2 of
the spec. For rows `y < B` the whole tapering span is U; for rows
`B ≤ y < 2*B` the U pixels are those between the N and W diagonal bands. -/
def faceU (B x y : Nat) : Bool :=
  (decide (y < B) && decide (2*B ≤ x + 2*y + 1) && decide (x ≤ 2*B + 2*y)) ||
  (decide (B ≤ y) && decide (y < 2*B) && decide (2*y + 1 ≤ x + 2*B) &&
    decide (x + 2*y + 2 ≤ 6*B))

/-- Modelled from the spec: the N (left) face region of the hexagon, per the
row-by-row outline in the blockimages.h comment: a widening wedge on rows
`B ≤ y < 2*B`, the left half on rows `2*B ≤ y < 3*B`, and a narrowing band
left of the midline on rows `3*B ≤ y < 4*B`. -/
def faceN (B x y : Nat) : Bool :=
  (decide (B ≤ y) && decide (y < 2*B) && decide (x + 2*B ≤ 2*y)) ||
  (decide (2*B ≤ y) && decide (y < 3*B) && decide (x < 2*B)) ||
  (decide (3*B ≤ y) && decide (y < 4*B) && decide (2*y + 1 ≤ x + 6*B) &&
    decide (x + 1 ≤ 2*B))

/-- Modelled from the spec: the W (right) face region of the hexagon,
mirroring `faceN` on the right half of the rectangle. -/
def faceW (B x y : Nat) : Bool :=
  (decide (B ≤ y) && decide (y < 2*B) && decide (6*B ≤ x + 2*y + 1) &&
    decide (x < 4*B)) ||
  (decide (2*B ≤ y) && decide (y < 3*B) && decide (2*B ≤ x) &&
    decide (x < 4*B)) ||
  (decide (3*B ≤ y) && decide (y < 4*B) && decide (2*B ≤ x) &&
    decide (x + 2*y + 2 ≤ 10*B))

/-- Modelled from the spec: the hexagon outline as a row-by-row width
formula. Row `y < B` spans columns `2*B-1-2*y .. 2*B+2*y`; rows
`B ≤ y < 3*B` span the full width `0 .. 4*B-1`; row `3*B + t` spans columns
`2*t+1 .. 4*B-2-2*t` (written additively to avoid truncated subtraction). -/
def inHexagon (B x y : Nat) : Bool :=
  (decide (y < B) && decide (2*B ≤ x + 2*y + 1) && decide (x ≤ 2*B + 2*y)) ||
  (decide (B ≤ y) && decide (y < 3*B) && decide (x < 4*B)) ||
  (decide (3*B ≤ y) && decide (y < 4*B) && decide (2*y + 1 ≤ x + 6*B) &&
    decide (x + 2*y + 2 ≤ 10*B))

/-- Modelled from the spec: the HexProjector (§4.2) synthesizes one
4B-by-4B block image; the per-face resampled source textures are passed as
pixel functions and each destination pixel takes its value from the face
that owns it, with everything outside the hexagon fully transparent. -/
def drawBlockImage (B : Nat) (topTex nTex wTex : Nat → Nat → RGBAPixel) :
    RGBAImage :=
  mkImage (4*B) (4*B) (fun x y =>
    if faceU B x y then topTex x y
    else if faceN B x y then nTex x y
    else if faceW B x y then wTex x y
    else transparentPixel)

/-- Modelled from the spec: the AtlasBuilder (§4.3) packs the per-slot
images 16 per row into one atlas; slot 0 is the reserved dummy and is left
fully transparent, as is the padding after the last slot. The per-slot
synthesis recipes (which terrain tiles feed which slot) live in the missing
translation unit and are abstracted as the `slotImage` parameter. -/
def buildAtlas (B numimages : Nat) (slotImage : Nat → Nat → Nat → RGBAPixel) :
    RGBAImage :=
  mkImage (16 * (4*B)) ((numimages + 15) / 16 * (4*B)) (fun x y =>
    if y / (4*B) * 16 + x / (4*B) < numimages ∧
        y / (4*B) * 16 + x / (4*B) ≠ 0 then
      slotImage (y / (4*B) * 16 + x / (4*B)) (x % (4*B)) (y % (4*B))
    else transparentPixel)

/-- Scan of one slot's full rectsize-by-rectsize rectangle: true when every
pixel's alpha equals `v`. -/
def slotAllAlpha (img : RGBAImage) (rectsize slot v : Nat) : Bool :=
  (List.range rectsize).all (fun dy =>
    (List.range rectsize).all (fun dx =>
      (img.getPixel (slot % 16 * rectsize + dx)
        (slot / 16 * rectsize + dy)).a == v))

/-- Modelled from the spec: the body of `checkOpacityAndTransparency`
(blockimages.h line 110) is in the missing translation unit; per §4.5 it
scans every slot's entire bounding rectangle and records full opacity
(every alpha 255) and full transparency (every alpha 0). -/
def checkOpacityAndTransparency (img : RGBAImage) (rectsize numimages : Nat) :
    List Bool × List Bool :=
  ((List.range numimages).map (fun slot => slotAllAlpha img rectsize slot 255),
   (List.range numimages).map (fun slot => slotAllAlpha img rectsize slot 0))

/-- Lookup of a (blockID, blockData) pair in the hand-curated catalog,
defaulting to slot 0 for unrecognized pairs. -/
def lookupCatalog (catalog : List ((Nat × Nat) × Nat)) (blockID blockData : Nat) :
    Nat :=
  match catalog.find? (fun e => e.1.1 == blockID && e.1.2 == blockData) with
  | some e => e.2
  | none => 0

/-- Modelled from the spec: the body of `setOffsets` (blockimages.h line
107) is in the missing translation unit; per §4.4 it fills all 256*16
entries of the offset table from the fixed hand-curated catalog, sending
every pair not in the catalog to the dummy slot 0. The catalog itself is
external static knowledge and is passed as a parameter. -/
def setOffsets (catalog : List ((Nat × Nat) × Nat)) : List Nat :=
  (List.range (256 * 16)).map (fun i => lookupCatalog catalog (i / 16) (i % 16))

/-- Modelled from the spec: the common tail of both construction paths —
retouch the atlas alphas, classify every slot, and fill the offset table;
this is the work `create` performs after an atlas image is obtained. -/
def finish (B : Nat) (catalog : List ((Nat × Nat) × Nat)) (img0 : RGBAImage) :
    BlockImages :=
  { img := retouchAlphas img0
    rectsize := 4*B
    blockOffsets := setOffsets catalog
    opacity :=
      (checkOpacityAndTransparency (retouchAlphas img0) (4*B) NUMIMAGES).1
    transparency :=
      (checkOpacityAndTransparency (retouchAlphas img0) (4*B) NUMIMAGES).2 }

/-- Modelled from the spec: `construct` (blockimages.h line 117) builds the
block images from the terrain art; the per-slot synthesis is abstracted as
`slotImage`, and the result is assembled, retouched, classified and
indexed. -/
def construct (B : Nat) (catalog : List ((Nat × Nat) × Nat))
    (slotImage : Nat → Nat → Nat → RGBAPixel) : BlockImages :=
  finish B catalog (buildAtlas B NUMIMAGES slotImage)

/-- The two construction attempts `create` can make, in order. -/
inductive Attempt where
  | loadPrebuilt
  | constructFromSource
deriving DecidableEq

/-- Outcome of `create`: either a fully built `BlockImages` value or a
clean failure carrying no data. -/
inductive CreateResult where
  | ready (bi : BlockImages)
  | failed

/-- Modelled from the spec: loading the prebuilt blocks-B.png succeeds only
when the file is present and has the dimensions the requested B demands
(MalformedSource is treated as a load failure, §7). -/
def tryLoadPrebuilt (B : Nat) (file : Option RGBAImage) : Option RGBAImage :=
  match file with
  | some img =>
    if img.w == 16 * (4*B) && img.h == (NUMIMAGES + 15) / 16 * (4*B) then
      some img
    else none
  | none => none

/-- Modelled from the spec: `create` (blockimages.h lines 102-104) first
attempts the prebuilt atlas, then falls back to constructing from raw
source art, then fails; the returned trace records each attempt made. The
availability of the prebuilt file and of the raw source art are the
`prebuilt` and `source` parameters. -/
def createWithTrace (B : Nat) (catalog : List ((Nat × Nat) × Nat))
    (prebuilt : Option RGBAImage)
    (source : Option (Nat → Nat → Nat → RGBAPixel)) :
    CreateResult × List Attempt :=
  match tryLoadPrebuilt B prebuilt with
  | some img => (CreateResult.ready (finish B catalog img), [Attempt.loadPrebuilt])
  | none =>
    match source with
    | some slotImage =>
      (CreateResult.ready (construct B catalog slotImage),
        [Attempt.loadPrebuilt, Attempt.constructFromSource])
    | none =>
      (CreateResult.failed, [Attempt.loadPrebuilt, Attempt.constructFromSource])

/-- Modelled from the spec: the result of the two-tier `create` entry
point, without the attempt trace. -/
def create (B : Nat) (catalog : List ((Nat × Nat) × Nat))
    (prebuilt : Option RGBAImage)
    (source : Option (Nat → Nat → Nat → RGBAPixel)) : CreateResult :=
  (createWithTrace B catalog prebuilt source).1

/-- Validity of a finished `BlockImages` value: all tables fully populated
and the atlas image of the exact required dimensions. -/
def validBlockImages (B : Nat) (bi : BlockImages) : Prop :=
  bi.rectsize = 4*B ∧
  bi.blockOffsets.length = 256 * 16 ∧
  bi.opacity.length = NUMIMAGES ∧
  bi.transparency.length = NUMIMAGES ∧
  bi.img.w = 16 * (4*B) ∧
  bi.img.h = (NUMIMAGES + 15) / 16 * (4*B)

/-! Helper lemmas shared by the claim theorems. -/

theorem getPixel_mkImage (w h : Nat) (f : Nat → Nat → RGBAPixel) (x y : Nat)
    (hx : x < w) (hy : y < h) : (mkImage w h f).getPixel x y = f x y := by
  have hw : 0 < w := by omega
  have hlt : y * w + x < w * h := by
    have h1 : (y + 1) * w ≤ h * w := Nat.mul_le_mul_right w (by omega)
    have h2 : (y + 1) * w = y * w + w := Nat.succ_mul y w
    have h3 : h * w = w * h := Nat.mul_comm h w
    omega
  unfold mkImage RGBAImage.getPixel
  simp only [List.getD_eq_getElem?_getD, List.getElem?_map,
    List.getElem?_range hlt, Option.map_some, Option.getD_some]
  have hmod : (y * w + x) % w = x := by
    rw [Nat.mul_comm y w, Nat.mul_add_mod, Nat.mod_eq_of_lt hx]
  have hdiv : (y * w + x) / w = y := by
    rw [Nat.mul_comm y w, Nat.mul_add_div hw, Nat.div_eq_of_lt hx]
    omega
  simp [hmod, hdiv]

theorem getPixel_retouchAlphas (img : RGBAImage) (x y : Nat) :
    (retouchAlphas img).getPixel x y = retouchPixel (img.getPixel x y) := by
  unfold retouchAlphas RGBAImage.getPixel
  simp only [List.getD_eq_getElem?_getD, List.getElem?_map]
  cases img.data[y * img.w + x]? with
  | none => rfl
  | some p => rfl

theorem slotAllAlpha_iff (img : RGBAImage) (rectsize slot v : Nat) :
    slotAllAlpha img rectsize slot v = true ↔
      ∀ dy < rectsize, ∀ dx < rectsize,
        (img.getPixel (slot % 16 * rectsize + dx)
          (slot / 16 * rectsize + dy)).a = v := by
  unfold slotAllAlpha
  simp [List.all_eq_true, List.mem_range]

theorem opacity_entry (img : RGBAImage) (rectsize numimages slot : Nat)
    (hs : slot < numimages) :
    (checkOpacityAndTransparency img rectsize numimages).1.getD slot false =
      slotAllAlpha img rectsize slot 255 := by
  unfold checkOpacityAndTransparency
  rw [List.getD_eq_getElem?_getD, List.getElem?_map, List.getElem?_range hs]
  rfl

theorem transparency_entry (img : RGBAImage) (rectsize numimages slot : Nat)
    (hs : slot < numimages) :
    (checkOpacityAndTransparency img rectsize numimages).2.getD slot false =
      slotAllAlpha img rectsize slot 0 := by
  unfold checkOpacityAndTransparency
  rw [List.getD_eq_getElem?_getD, List.getElem?_map, List.getElem?_range hs]
  rfl

theorem retouchAlpha_idem (a : Nat) :
    retouchAlpha (retouchAlpha a) = retouchAlpha a := by
  unfold retouchAlpha
  split_ifs <;> omega

theorem retouchPixel_idem (p : RGBAPixel) :
    retouchPixel (retouchPixel p) = retouchPixel p := by
  cases p
  simp [retouchPixel, retouchAlpha_idem]

theorem retouchAlpha_range (a : Nat) :
    ¬ (0 < retouchAlpha a ∧ retouchAlpha a < 10) ∧
    ¬ (245 < retouchAlpha a ∧ retouchAlpha a < 255) := by
  unfold retouchAlpha
  split_ifs <;> omega

theorem tryLoadPrebuilt_dims (B : Nat) (prebuilt : Option RGBAImage)
    (img : RGBAImage) (hp : tryLoadPrebuilt B prebuilt = some img) :
    img.w = 16 * (4*B) ∧ img.h = (NUMIMAGES + 15) / 16 * (4*B) := by
  cases prebuilt with
  | none => cases hp
  | some file =>
    simp only [tryLoadPrebuilt] at hp
    split at hp
    · next hc =>
        cases hp
        simp only [Bool.and_eq_true, beq_iff_eq] at hc
        omega
    · cases hp

theorem create_ready_inv (B : Nat) (catalog : List ((Nat × Nat) × Nat))
    (prebuilt : Option RGBAImage)
    (source : Option (Nat → Nat → Nat → RGBAPixel)) (bi : BlockImages)
    (h : create B catalog prebuilt source = CreateResult.ready bi) :
    ∃ img0 : RGBAImage, bi = finish B catalog img0 ∧
      img0.w = 16 * (4*B) ∧ img0.h = (NUMIMAGES + 15) / 16 * (4*B) := by
  unfold create createWithTrace at h
  cases hp : tryLoadPrebuilt B prebuilt with
  | some img =>
    rw [hp] at h
    simp only [CreateResult.ready.injEq] at h
    obtain ⟨hw, hh⟩ := tryLoadPrebuilt_dims B prebuilt img hp
    exact ⟨img, h.symm, hw, hh⟩
  | none =>
    rw [hp] at h
    cases source with
    | some slotImage =>
      simp only [CreateResult.ready.injEq] at h
      exact ⟨buildAtlas B NUMIMAGES slotImage, h.symm, rfl, rfl⟩
    | none => cases h

theorem finish_valid (B : Nat) (catalog : List ((Nat × Nat) × Nat))
    (img0 : RGBAImage) (hw : img0.w = 16 * (4*B))
    (hh : img0.h = (NUMIMAGES + 15) / 16 * (4*B)) :
    validBlockImages B (finish B catalog img0) := by
  refine ⟨rfl, ?_, ?_, ?_, hw, hh⟩
  · show (setOffsets catalog).length = 256 * 16
    unfold setOffsets
    rw [List.length_map, List.length_range]
  · show ((List.range NUMIMAGES).map _).length = NUMIMAGES
    rw [List.length_map, List.length_range]
  · show ((List.range NUMIMAGES).map _).length = NUMIMAGES
    rw [List.length_map, List.length_range]

theorem construct_pixel_slot0 (B : Nat)
    (catalog : List ((Nat × Nat) × Nat))
    (slotImage : Nat → Nat → Nat → RGBAPixel) (dx dy : Nat)
    (hdx : dx < 4*B) (hdy : dy < 4*B) :
    ((construct B catalog slotImage).img.getPixel dx dy).a = 0 := by
  have himg : (construct B catalog slotImage).img =
      retouchAlphas (buildAtlas B NUMIMAGES slotImage) := rfl
  rw [himg, getPixel_retouchAlphas]
  have h15 : (NUMIMAGES + 15) / 16 = 15 := rfl
  have hx : dx < 16 * (4*B) := by omega
  have hy : dy < (NUMIMAGES + 15) / 16 * (4*B) := by rw [h15]; omega
  unfold buildAtlas
  rw [getPixel_mkImage _ _ _ _ _ hx hy]
  have hdx0 : dx / (4*B) = 0 := Nat.div_eq_of_lt hdx
  have hdy0 : dy / (4*B) = 0 := Nat.div_eq_of_lt hdy
  simp only [hdx0, hdy0]
  rw [if_neg (fun hcon => hcon.2 (by omega))]
  rfl

/-! Claim theorems. -/

/-- Claim C4: `getOffset` is total and deterministic on the 4096-key domain:
after `setOffsets` every entry is defined (the raw access succeeds and the
value is exactly the catalog lookup, so equal calls return equal slots),
and every (blockID, blockData) pair not present in the curated catalog
returns slot 0. -/
theorem getOffset_total_default (catalog : List ((Nat × Nat) × Nat))
    (bi : BlockImages) (hbo : bi.blockOffsets = setOffsets catalog) :
    bi.blockOffsets.length = 256 * 16 ∧
    (∀ blockID < 256, ∀ blockData < 16,
      (bi.getOffsetChecked blockID blockData).isSome = true ∧
      bi.getOffset blockID blockData = lookupCatalog catalog blockID blockData) ∧
    (∀ blockID < 256, ∀ blockData < 16,
      catalog.find? (fun e => e.1.1 == blockID && e.1.2 == blockData) = none →
      bi.getOffset blockID blockData = 0) := by
  have hlen : bi.blockOffsets.length = 256 * 16 := by
    rw [hbo]; unfold setOffsets; simp
  have hmain : ∀ blockID < 256, ∀ blockData < 16,
      (bi.getOffsetChecked blockID blockData).isSome = true ∧
      bi.getOffset blockID blockData = lookupCatalog catalog blockID blockData := by
    intro blockID hID blockData hData
    have hidx : offsetIndex blockID blockData < 256 * 16 := by
      unfold offsetIndex; omega
    have hget : bi.getOffsetChecked blockID blockData =
        some (lookupCatalog catalog blockID blockData) := by
      unfold BlockImages.getOffsetChecked
      rw [hbo]
      unfold setOffsets
      rw [List.getElem?_map, List.getElem?_range hidx]
      have hdiv : offsetIndex blockID blockData / 16 = blockID := by
        unfold offsetIndex; omega
      have hmod : offsetIndex blockID blockData % 16 = blockData := by
        unfold offsetIndex; omega
      rw [Option.map_some']
      rw [hdiv, hmod]
    constructor
    · rw [hget]; rfl
    · unfold BlockImages.getOffset
      rw [hget]; rfl
  refine ⟨hlen, hmain, ?_⟩
  intro blockID hID blockData hData hfind
  have h := (hmain blockID hID blockData hData).2
  rw [h]
  unfold lookupCatalog
  rw [hfind]

/-- Claim C4 witness: the theorem applied to the empty catalog, showing the
raw access at (blockID, blockData) = (255, 15) is defined and returns the
dummy slot 0. -/
theorem getOffset_total_default_witness :
    ((⟨⟨0, 0, []⟩, 0, Pigmap.setOffsets [], [], []⟩ :
      BlockImages).getOffsetChecked 255 15).isSome = true ∧
    (⟨⟨0, 0, []⟩, 0, Pigmap.setOffsets [], [], []⟩ :
      BlockImages).getOffset 255 15 = 0 := by
  have h := getOffset_total_default []
    ⟨⟨0, 0, []⟩, 0, Pigmap.setOffsets [], [], []⟩ rfl
  refine ⟨(h.2.1 255 (by decide) 15 (by decide)).1, ?_⟩
  exact h.2.2 255 (by decide) 15 (by decide) rfl

/-- Claim C10: `getOffset` computes the unchecked index
blockID * 16 + blockData into the 4096-entry table; with blockData at most
15 the index is in bounds for every 8-bit blockID, but the uint8_t
parameter admits blockData values up to 255, for which the access reads
past the end of the table. -/
theorem getOffset_index_unchecked (bi : BlockImages)
    (hlen : bi.blockOffsets.length = 256 * 16) :
    (∀ blockID < 256, ∀ blockData < 16,
      offsetIndex blockID blockData < 256 * 16 ∧
      (bi.getOffsetChecked blockID blockData).isSome = true) ∧
    (255 < 256 ∧ 256 * 16 ≤ offsetIndex 255 255 ∧
      bi.getOffsetChecked 255 255 = none) := by
  refine ⟨?_, by omega, by unfold offsetIndex; omega, ?_⟩
  · intro blockID hID blockData hData
    have hidx : offsetIndex blockID blockData < 256 * 16 := by
      unfold offsetIndex; omega
    refine ⟨hidx, ?_⟩
    unfold BlockImages.getOffsetChecked
    rw [List.getElem?_eq_getElem (by omega)]
    rfl
  · unfold BlockImages.getOffsetChecked
    exact List.getElem?_eq_none (by unfold offsetIndex; omega)

/-- Claim C10 witness: the theorem applied to a concrete full-length table;
(255, 15) is in bounds and (255, 255) reads past the end. -/
theorem getOffset_index_unchecked_witness :
    offsetIndex 255 15 < 256 * 16 ∧
    (⟨⟨0, 0, []⟩, 0, List.replicate (256 * 16) 0, [], []⟩ :
      BlockImages).getOffsetChecked 255 255 = none := by
  have h := getOffset_index_unchecked
    ⟨⟨0, 0, []⟩, 0, List.replicate (256 * 16) 0, [], []⟩
    (by rw [List.length_replicate])
  exact ⟨(h.1 255 (by decide) 15 (by decide)).1, h.2.2.2⟩

/-- Claim C9: `getRect` maps a slot to the rectangle at
((slot mod 16) * rectsize, (slot div 16) * rectsize) of size
rectsize-by-rectsize, and the rectangles of two distinct slots never
overlap. -/
theorem getRect_spec (bi : BlockImages) :
    (∀ offset : Nat, bi.getRect offset =
      ⟨offset % 16 * bi.rectsize, offset / 16 * bi.rectsize,
        bi.rectsize, bi.rectsize⟩) ∧
    (∀ s1 s2 px py : Nat, s1 ≠ s2 →
      ¬ ((bi.getRect s1).contains px py ∧ (bi.getRect s2).contains px py)) := by
  constructor
  · intro offset; rfl
  · intro s1 s2 px py hne ⟨h1, h2⟩
    unfold BlockImages.getRect ImageRect.contains at h1 h2
    simp only at h1 h2
    obtain ⟨h1x, h1x2, h1y, h1y2⟩ := h1
    obtain ⟨h2x, h2x2, h2y, h2y2⟩ := h2
    have hx1 : px / bi.rectsize = s1 % 16 :=
      Nat.div_eq_of_lt_le h1x (by rw [Nat.succ_mul]; omega)
    have hx2 : px / bi.rectsize = s2 % 16 :=
      Nat.div_eq_of_lt_le h2x (by rw [Nat.succ_mul]; omega)
    have hy1 : py / bi.rectsize = s1 / 16 :=
      Nat.div_eq_of_lt_le h1y (by rw [Nat.succ_mul]; omega)
    have hy2 : py / bi.rectsize = s2 / 16 :=
      Nat.div_eq_of_lt_le h2y (by rw [Nat.succ_mul]; omega)
    omega

/-- Claim C9 witness: the theorem applied at rectsize 4: slot 17 occupies
the square at (4, 4), and slots 0 and 17 do not both contain the point
(4, 4). -/
theorem getRect_spec_witness :
    (⟨⟨0, 0, []⟩, 4, [], [], []⟩ : BlockImages).getRect 17 = ⟨4, 4, 4, 4⟩ ∧
    ¬ (((⟨⟨0, 0, []⟩, 4, [], [], []⟩ : BlockImages).getRect 0).contains 4 4 ∧
       ((⟨⟨0, 0, []⟩, 4, [], [], []⟩ : BlockImages).getRect 17).contains 4 4) := by
  have h := getRect_spec (⟨⟨0, 0, []⟩, 4, [], [], []⟩ : BlockImages)
  exact ⟨h.1 17, h.2 0 17 4 4 (by decide)⟩

/-- Claim C6: the retouch pass is idempotent — applying `retouchAlphas`
twice gives the same pixel buffer as applying it once — and it never
alters a genuinely translucent pixel, that is one whose alpha lies in the
band [10, 245] untouched by the clamp. -/
theorem retouchAlphas_idempotent :
    (∀ img : RGBAImage,
      retouchAlphas (retouchAlphas img) = retouchAlphas img) ∧
    (∀ p : RGBAPixel, 10 ≤ p.a → p.a ≤ 245 → retouchPixel p = p) := by
  constructor
  · intro img
    unfold retouchAlphas
    simp only [List.map_map]
    congr 1
    rw [List.map_eq_map_iff]
    intro p hp
    exact retouchPixel_idem p
  · intro p h1 h2
    cases p with
    | mk r g b a =>
      simp only [retouchPixel, retouchAlpha] at *
      simp only [RGBAPixel.mk.injEq, true_and]
      split_ifs <;> omega

/-- Claim C6 witness: the theorem applied to a one-pixel image and to the
half-transparent pixel of alpha 128, which the retouch leaves unchanged. -/
theorem retouchAlphas_idempotent_witness :
    retouchAlphas (retouchAlphas ⟨1, 1, [⟨0, 0, 0, 128⟩]⟩) =
      retouchAlphas ⟨1, 1, [⟨0, 0, 0, 128⟩]⟩ ∧
    retouchPixel ⟨0, 0, 0, 128⟩ = ⟨0, 0, 0, 128⟩ := by
  exact ⟨retouchAlphas_idempotent.1 ⟨1, 1, [⟨0, 0, 0, 128⟩]⟩,
    retouchAlphas_idempotent.2 ⟨0, 0, 0, 128⟩ (by decide) (by decide)⟩

/-- Claim C5: in the finished atlas produced by a successful `create`, no
pixel's stored alpha lies strictly between 0 and 10 or strictly between
245 and 255. -/
theorem alpha_clamp_law (B : Nat) (catalog : List ((Nat × Nat) × Nat))
    (prebuilt : Option RGBAImage)
    (source : Option (Nat → Nat → Nat → RGBAPixel)) (bi : BlockImages)
    (hready : create B catalog prebuilt source = CreateResult.ready bi) :
    ∀ p ∈ bi.img.data,
      ¬ (0 < p.a ∧ p.a < 10) ∧ ¬ (245 < p.a ∧ p.a < 255) := by
  obtain ⟨img0, rfl, hw, hh⟩ :=
    create_ready_inv B catalog prebuilt source bi hready
  intro p hp
  have hdata : (finish B catalog img0).img.data =
      img0.data.map retouchPixel := rfl
  rw [hdata] at hp
  obtain ⟨q, hq, rfl⟩ := List.mem_map.mp hp
  exact retouchAlpha_range q.a

/-- Claim C5 witness: the theorem applied to a successful creation from a
prebuilt atlas of the required 64-by-60 size at B = 1, evaluated at the
atlas pixel obtained from the half-transparent source pixel. -/
theorem alpha_clamp_law_witness :
    ¬ (0 < (retouchPixel ⟨0, 0, 0, 128⟩).a ∧
        (retouchPixel ⟨0, 0, 0, 128⟩).a < 10) ∧
    ¬ (245 < (retouchPixel ⟨0, 0, 0, 128⟩).a ∧
        (retouchPixel ⟨0, 0, 0, 128⟩).a < 255) := by
  have h := alpha_clamp_law 1 []
    (some (mkImage (16 * (4*1)) ((NUMIMAGES + 15) / 16 * (4*1))
      (fun _ _ => ⟨0, 0, 0, 128⟩))) none
    (finish 1 [] (mkImage (16 * (4*1)) ((NUMIMAGES + 15) / 16 * (4*1))
      (fun _ _ => ⟨0, 0, 0, 128⟩))) rfl
  apply h
  show retouchPixel ⟨0, 0, 0, 128⟩ ∈
    (mkImage (16 * (4*1)) ((NUMIMAGES + 15) / 16 * (4*1))
      (fun _ _ => ⟨0, 0, 0, 128⟩)).data.map retouchPixel
  apply List.mem_map.mpr
  refine ⟨⟨0, 0, 0, 128⟩, ?_, rfl⟩
  show (⟨0, 0, 0, 128⟩ : RGBAPixel) ∈
    (List.range (16 * (4*1) * ((NUMIMAGES + 15) / 16 * (4*1)))).map _
  exact List.mem_map.mpr ⟨0, List.mem_range.mpr (by decide), rfl⟩

/-- Claim C1: for every block image synthesized with half-size B at least 1,
every pixel strictly outside the hexagonal outline of the row-by-row width
formula has alpha 0, and the hexagon is exactly partitioned by the three
faces U, N, W, which are pairwise disjoint, so every silhouette pixel
belongs to exactly one face. -/
theorem hexagon_silhouette_law (B : Nat) (hB : 1 ≤ B)
    (topTex nTex wTex : Nat → Nat → RGBAPixel) (x y : Nat)
    (hx : x < 4*B) (hy : y < 4*B) :
    (inHexagon B x y = false →
      ((drawBlockImage B topTex nTex wTex).getPixel x y).a = 0) ∧
    (inHexagon B x y = (faceU B x y || faceN B x y || faceW B x y)) ∧
    ¬ (faceU B x y = true ∧ faceN B x y = true) ∧
    ¬ (faceU B x y = true ∧ faceW B x y = true) ∧
    ¬ (faceN B x y = true ∧ faceW B x y = true) := by
  have hcover : inHexagon B x y = (faceU B x y || faceN B x y || faceW B x y) := by
    rw [Bool.eq_iff_iff]
    unfold inHexagon faceU faceN faceW
    simp only [Bool.or_eq_true, Bool.and_eq_true, decide_eq_true_eq]
    omega
  have hUN : ¬ (faceU B x y = true ∧ faceN B x y = true) := by
    unfold faceU faceN
    simp only [Bool.or_eq_true, Bool.and_eq_true, decide_eq_true_eq]
    omega
  have hUW : ¬ (faceU B x y = true ∧ faceW B x y = true) := by
    unfold faceU faceW
    simp only [Bool.or_eq_true, Bool.and_eq_true, decide_eq_true_eq]
    omega
  have hNW : ¬ (faceN B x y = true ∧ faceW B x y = true) := by
    unfold faceN faceW
    simp only [Bool.or_eq_true, Bool.and_eq_true, decide_eq_true_eq]
    omega
  refine ⟨?_, hcover, hUN, hUW, hNW⟩
  intro hout
  rw [hcover] at hout
  simp only [Bool.or_eq_false_iff] at hout
  obtain ⟨⟨hU, hN⟩, hW⟩ := hout
  unfold drawBlockImage
  rw [getPixel_mkImage _ _ _ _ _ hx hy]
  rw [hU, hN, hW]
  rfl

/-- Claim C1 witness: the theorem applied at B = 1 and the corner pixel
(0, 0), which lies outside the hexagon. -/
theorem hexagon_silhouette_law_witness :
    (inHexagon 1 0 0 = false →
      ((drawBlockImage 1 (fun _ _ => ⟨1, 2, 3, 200⟩) (fun _ _ => ⟨4, 5, 6, 200⟩)
        (fun _ _ => ⟨7, 8, 9, 200⟩)).getPixel 0 0).a = 0) ∧
    (inHexagon 1 0 0 = (faceU 1 0 0 || faceN 1 0 0 || faceW 1 0 0)) ∧
    ¬ (faceU 1 0 0 = true ∧ faceN 1 0 0 = true) ∧
    ¬ (faceU 1 0 0 = true ∧ faceW 1 0 0 = true) ∧
    ¬ (faceN 1 0 0 = true ∧ faceW 1 0 0 = true) :=
  hexagon_silhouette_law 1 (by decide) _ _ _ 0 0 (by decide) (by decide)

/-- Claim C3: after the retouch pass, the classifier sets the opacity entry
of a slot to true exactly when every pixel of the slot's full
rectsize-by-rectsize rectangle has alpha 255, and the transparency entry to
true exactly when every such pixel has alpha 0; `isOpaque` and
`isTransparent` return exactly these table entries. -/
theorem classifier_full_rectangle (B : Nat)
    (catalog : List ((Nat × Nat) × Nat)) (img0 : RGBAImage) (slot : Nat)
    (hs : slot < NUMIMAGES) :
    ((finish B catalog img0).isOpaque slot = true ↔
      ∀ dy < 4*B, ∀ dx < 4*B,
        ((finish B catalog img0).img.getPixel
          (slot % 16 * (4*B) + dx) (slot / 16 * (4*B) + dy)).a = 255) ∧
    ((finish B catalog img0).isTransparent slot = true ↔
      ∀ dy < 4*B, ∀ dx < 4*B,
        ((finish B catalog img0).img.getPixel
          (slot % 16 * (4*B) + dx) (slot / 16 * (4*B) + dy)).a = 0) := by
  have hop : (finish B catalog img0).opacity =
      (checkOpacityAndTransparency (retouchAlphas img0) (4*B) NUMIMAGES).1 := rfl
  have htr : (finish B catalog img0).transparency =
      (checkOpacityAndTransparency (retouchAlphas img0) (4*B) NUMIMAGES).2 := rfl
  have himg : (finish B catalog img0).img = retouchAlphas img0 := rfl
  constructor
  · unfold BlockImages.isOpaque
    rw [hop, opacity_entry _ _ _ _ hs, himg]
    exact slotAllAlpha_iff _ _ _ _
  · unfold BlockImages.isTransparent
    rw [htr, transparency_entry _ _ _ _ hs, himg]
    exact slotAllAlpha_iff _ _ _ _

/-- Claim C3 witness: the theorem applied at B = 1, the empty catalog, a
one-pixel source image and slot 0. -/
theorem classifier_full_rectangle_witness :
    ((finish 1 [] ⟨1, 1, [⟨0, 0, 0, 255⟩]⟩).isOpaque 0 = true ↔
      ∀ dy < 4*1, ∀ dx < 4*1,
        ((finish 1 [] ⟨1, 1, [⟨0, 0, 0, 255⟩]⟩).img.getPixel
          (0 % 16 * (4*1) + dx) (0 / 16 * (4*1) + dy)).a = 255) ∧
    ((finish 1 [] ⟨1, 1, [⟨0, 0, 0, 255⟩]⟩).isTransparent 0 = true ↔
      ∀ dy < 4*1, ∀ dx < 4*1,
        ((finish 1 [] ⟨1, 1, [⟨0, 0, 0, 255⟩]⟩).img.getPixel
          (0 % 16 * (4*1) + dx) (0 / 16 * (4*1) + dy)).a = 0) :=
  classifier_full_rectangle 1 [] ⟨1, 1, [⟨0, 0, 0, 255⟩]⟩ 0 (by decide)

/-- Claim C7: after classification of a constructed atlas, the reserved
dummy slot 0 is transparent and not opaque, every pixel of its rectangle
has alpha 0, and for every slot of any finished atlas the opacity and
transparency entries are never both true. -/
theorem classification_invariants (B : Nat) (hB : 1 ≤ B)
    (catalog : List ((Nat × Nat) × Nat))
    (slotImage : Nat → Nat → Nat → RGBAPixel) :
    (construct B catalog slotImage).isTransparent 0 = true ∧
    (construct B catalog slotImage).isOpaque 0 = false ∧
    (∀ dx < 4*B, ∀ dy < 4*B,
      ((construct B catalog slotImage).img.getPixel dx dy).a = 0) ∧
    (∀ img0 : RGBAImage, ∀ slot < NUMIMAGES,
      ¬ ((finish B catalog img0).isOpaque slot = true ∧
         (finish B catalog img0).isTransparent slot = true)) := by
  have hzero : ∀ dx < 4*B, ∀ dy < 4*B,
      ((construct B catalog slotImage).img.getPixel dx dy).a = 0 :=
    fun dx hdx dy hdy => construct_pixel_slot0 B catalog slotImage dx dy hdx hdy
  have himg : (construct B catalog slotImage).img =
      retouchAlphas (buildAtlas B NUMIMAGES slotImage) := rfl
  have htr0 : (construct B catalog slotImage).isTransparent 0 =
      slotAllAlpha (retouchAlphas (buildAtlas B NUMIMAGES slotImage)) (4*B) 0 0 := by
    unfold BlockImages.isTransparent
    exact transparency_entry _ _ _ _ (by decide)
  have hop0 : (construct B catalog slotImage).isOpaque 0 =
      slotAllAlpha (retouchAlphas (buildAtlas B NUMIMAGES slotImage)) (4*B) 0 255 := by
    unfold BlockImages.isOpaque
    exact opacity_entry _ _ _ _ (by decide)
  refine ⟨?_, ?_, hzero, ?_⟩
  · rw [htr0, slotAllAlpha_iff]
    intro dy hdy dx hdx
    have h := hzero (0 % 16 * (4*B) + dx) (by omega) (0 / 16 * (4*B) + dy) (by omega)
    rw [himg] at h
    exact h
  · rw [hop0, Bool.eq_false_iff]
    intro htrue
    rw [slotAllAlpha_iff] at htrue
    have h255 := htrue 0 (by omega) 0 (by omega)
    have h0 := hzero (0 % 16 * (4*B) + 0) (by omega) (0 / 16 * (4*B) + 0) (by omega)
    rw [himg] at h0
    omega
  · intro img0 slot hs ⟨hopq, htrn⟩
    unfold BlockImages.isOpaque at hopq
    unfold BlockImages.isTransparent at htrn
    have h1 : (finish B catalog img0).opacity =
        (checkOpacityAndTransparency (retouchAlphas img0) (4*B) NUMIMAGES).1 := rfl
    have h2 : (finish B catalog img0).transparency =
        (checkOpacityAndTransparency (retouchAlphas img0) (4*B) NUMIMAGES).2 := rfl
    rw [h1, opacity_entry _ _ _ _ hs, slotAllAlpha_iff] at hopq
    rw [h2, transparency_entry _ _ _ _ hs, slotAllAlpha_iff] at htrn
    have a255 := hopq 0 (by omega) 0 (by omega)
    have a0 := htrn 0 (by omega) 0 (by omega)
    omega

/-- Claim C7 witness: the theorem applied at B = 1, the empty catalog and a
constant half-transparent slot painter. -/
theorem classification_invariants_witness :
    (construct 1 [] (fun _ _ _ => ⟨0, 0, 0, 128⟩)).isTransparent 0 = true ∧
    (construct 1 [] (fun _ _ _ => ⟨0, 0, 0, 128⟩)).isOpaque 0 = false ∧
    (∀ dx < 4*1, ∀ dy < 4*1,
      ((construct 1 [] (fun _ _ _ => ⟨0, 0, 0, 128⟩)).img.getPixel dx dy).a = 0) ∧
    (∀ img0 : RGBAImage, ∀ slot < NUMIMAGES,
      ¬ ((finish 1 [] img0).isOpaque slot = true ∧
         (finish 1 [] img0).isTransparent slot = true)) :=
  classification_invariants 1 (by decide) [] (fun _ _ _ => ⟨0, 0, 0, 128⟩)

/-- Claim C8: for every B at least 1, a successfully built atlas has width
exactly 16 times 4B and height exactly ceil(NUMIMAGES / 16) times 4B, with
rectsize = 4B. -/
theorem atlas_dimensions (B : Nat) (hB : 1 ≤ B)
    (catalog : List ((Nat × Nat) × Nat)) (prebuilt : Option RGBAImage)
    (source : Option (Nat → Nat → Nat → RGBAPixel)) (bi : BlockImages)
    (hready : create B catalog prebuilt source = CreateResult.ready bi) :
    bi.rectsize = 4*B ∧ bi.img.w = 16 * (4*B) ∧
    bi.img.h = (NUMIMAGES + 15) / 16 * (4*B) := by
  obtain ⟨img0, rfl, hw, hh⟩ :=
    create_ready_inv B catalog prebuilt source bi hready
  exact ⟨rfl, hw, hh⟩

/-- Claim C8 witness: the theorem applied to a successful construction at
B = 1, giving a 64-wide, 60-tall atlas. -/
theorem atlas_dimensions_witness :
    (construct 1 [] (fun _ _ _ => ⟨0, 0, 0, 128⟩)).rectsize = 4*1 ∧
    (construct 1 [] (fun _ _ _ => ⟨0, 0, 0, 128⟩)).img.w = 16 * (4*1) ∧
    (construct 1 [] (fun _ _ _ => ⟨0, 0, 0, 128⟩)).img.h =
      (NUMIMAGES + 15) / 16 * (4*1) :=
  atlas_dimensions 1 (by decide) [] none (some (fun _ _ _ => ⟨0, 0, 0, 128⟩))
    (construct 1 [] (fun _ _ _ => ⟨0, 0, 0, 128⟩)) rfl

/-- Claim C2: `create` attempts the prebuilt atlas exactly once; only if
that load fails does it attempt construction from raw source art, exactly
once; if both fail it returns a clean failure, and any Ready result
carries fully populated offset, opacity and transparency tables and an
atlas of the exact required dimensions. -/
theorem create_two_tier (B : Nat) (catalog : List ((Nat × Nat) × Nat))
    (prebuilt : Option RGBAImage)
    (source : Option (Nat → Nat → Nat → RGBAPixel)) :
    ((createWithTrace B catalog prebuilt source).2.count
      Attempt.loadPrebuilt = 1) ∧
    ((createWithTrace B catalog prebuilt source).2.count
      Attempt.constructFromSource =
      if (tryLoadPrebuilt B prebuilt).isSome then 0 else 1) ∧
    ((createWithTrace B catalog prebuilt source).1 = CreateResult.failed ↔
      tryLoadPrebuilt B prebuilt = none ∧ source = none) ∧
    (∀ bi, (createWithTrace B catalog prebuilt source).1 =
        CreateResult.ready bi → validBlockImages B bi) := by
  cases hp : tryLoadPrebuilt B prebuilt with
  | some img =>
    obtain ⟨hw, hh⟩ := tryLoadPrebuilt_dims B prebuilt img hp
    simp only [createWithTrace, hp, Option.isSome_some, if_true]
    refine ⟨rfl, rfl, by simp, ?_⟩
    intro bi hbi
    simp only [CreateResult.ready.injEq] at hbi
    rw [← hbi]
    exact finish_valid B catalog img hw hh
  | none =>
    cases source with
    | some slotImage =>
      simp only [createWithTrace, hp, Option.isSome_none, if_false]
      refine ⟨rfl, rfl, by simp, ?_⟩
      intro bi hbi
      simp only [CreateResult.ready.injEq] at hbi
      rw [← hbi]
      exact finish_valid B catalog (buildAtlas B NUMIMAGES slotImage) rfl rfl
    | none =>
      simp only [createWithTrace, hp, Option.isSome_none, if_false]
      refine ⟨rfl, rfl, by simp, ?_⟩
      intro bi hbi
      exact (CreateResult.noConfusion hbi)

/-- Claim C2 witness: the theorem applied at B = 1 with no prebuilt atlas
and a source sheet, exercising the fallback path into a valid Ready
state. -/
theorem create_two_tier_witness :
    ((createWithTrace 1 [] none (some (fun _ _ _ => ⟨0, 0, 0, 128⟩))).2.count
      Attempt.loadPrebuilt = 1) ∧
    validBlockImages 1 (construct 1 [] (fun _ _ _ => ⟨0, 0, 0, 128⟩)) := by
  have h := create_two_tier 1 [] none (some (fun _ _ _ => ⟨0, 0, 0, 128⟩))
  exact ⟨h.1, h.2.2.2 _ rfl⟩

end Pigmap
